import Mathlib

/-!
Verification development for the notion-chakra-mcp schema subsystem.

The definitions below are a shallow embedding of the Python sources:
  * `src/src/schemas/schema_manager.py` (SchemaManager: extractor and store),
  * `src/src/schema_tools.py`           (fetch_schemas / get_schema),
  * `src/src/setup_tools.py`            (record_db_index / record_db_schemas /
                                         sync_databases),
  * `src/src/notion_tools.py`           (list_databases / get_database),
  * `src/src/models/notion.py`          (pydantic Database model).

Python dictionaries are embedded as association lists with first-key lookup
and replace-in-place insertion (Python dicts hold at most one binding per
key, so on every value actually built by the code the two agree).  Raised
exceptions are embedded as `Except.error`; file contents are embedded at the
JSON-value level (for a JSON-serializable dict, `json.dump` followed by
`json.load` is the identity at that level).
-/

namespace NotionChakra

/-- JSON values as produced and consumed by the Python code under
verification.  Numbers are integers: none of the code paths the claims are
about performs numeric computation. -/
inductive Json where
  | null
  | bool (b : Bool)
  | num (n : Int)
  | str (s : String)
  | arr (elems : List Json)
  | obj (fields : List (String × Json))
deriving Repr

mutual

/-- Decidable equality on JSON values (the derive handler does not support
this nested inductive). -/
def Json.decEq : (a b : Json) → Decidable (a = b)
  | .null, .null => .isTrue rfl
  | .bool x, .bool y =>
      if h : x = y then .isTrue (by rw [h]) else .isFalse (by simp [h])
  | .num x, .num y =>
      if h : x = y then .isTrue (by rw [h]) else .isFalse (by simp [h])
  | .str x, .str y =>
      if h : x = y then .isTrue (by rw [h]) else .isFalse (by simp [h])
  | .arr xs, .arr ys =>
      match Json.decEqList xs ys with
      | .isTrue h => .isTrue (by rw [h])
      | .isFalse h => .isFalse (by simp [h])
  | .obj xs, .obj ys =>
      match Json.decEqFields xs ys with
      | .isTrue h => .isTrue (by rw [h])
      | .isFalse h => .isFalse (by simp [h])
  | .null, .bool _ => .isFalse (by simp)
  | .null, .num _ => .isFalse (by simp)
  | .null, .str _ => .isFalse (by simp)
  | .null, .arr _ => .isFalse (by simp)
  | .null, .obj _ => .isFalse (by simp)
  | .bool _, .null => .isFalse (by simp)
  | .bool _, .num _ => .isFalse (by simp)
  | .bool _, .str _ => .isFalse (by simp)
  | .bool _, .arr _ => .isFalse (by simp)
  | .bool _, .obj _ => .isFalse (by simp)
  | .num _, .null => .isFalse (by simp)
  | .num _, .bool _ => .isFalse (by simp)
  | .num _, .str _ => .isFalse (by simp)
  | .num _, .arr _ => .isFalse (by simp)
  | .num _, .obj _ => .isFalse (by simp)
  | .str _, .null => .isFalse (by simp)
  | .str _, .bool _ => .isFalse (by simp)
  | .str _, .num _ => .isFalse (by simp)
  | .str _, .arr _ => .isFalse (by simp)
  | .str _, .obj _ => .isFalse (by simp)
  | .arr _, .null => .isFalse (by simp)
  | .arr _, .bool _ => .isFalse (by simp)
  | .arr _, .num _ => .isFalse (by simp)
  | .arr _, .str _ => .isFalse (by simp)
  | .arr _, .obj _ => .isFalse (by simp)
  | .obj _, .null => .isFalse (by simp)
  | .obj _, .bool _ => .isFalse (by simp)
  | .obj _, .num _ => .isFalse (by simp)
  | .obj _, .str _ => .isFalse (by simp)
  | .obj _, .arr _ => .isFalse (by simp)

/-- Decidable equality on lists of JSON values. -/
def Json.decEqList : (a b : List Json) → Decidable (a = b)
  | [], [] => .isTrue rfl
  | [], _ :: _ => .isFalse (by simp)
  | _ :: _, [] => .isFalse (by simp)
  | x :: xs, y :: ys =>
      match Json.decEq x y with
      | .isTrue h1 =>
          match Json.decEqList xs ys with
          | .isTrue h2 => .isTrue (by rw [h1, h2])
          | .isFalse h2 => .isFalse (by simp [h2])
      | .isFalse h1 => .isFalse (by simp [h1])

/-- Decidable equality on JSON object field lists. -/
def Json.decEqFields : (a b : List (String × Json)) → Decidable (a = b)
  | [], [] => .isTrue rfl
  | [], _ :: _ => .isFalse (by simp)
  | _ :: _, [] => .isFalse (by simp)
  | (k1, v1) :: xs, (k2, v2) :: ys =>
      if hk : k1 = k2 then
        match Json.decEq v1 v2 with
        | .isTrue h1 =>
            match Json.decEqFields xs ys with
            | .isTrue h2 => .isTrue (by rw [hk, h1, h2])
            | .isFalse h2 => .isFalse (by simp [h2])
        | .isFalse h1 => .isFalse (by simp [h1])
      else .isFalse (by simp [hk])

end

instance : DecidableEq Json := Json.decEq

/-- First-match lookup in an association list, the embedding of Python
dictionary indexing (a Python dict holds each key at most once). -/
def alistLookup {κ α : Type} [DecidableEq κ] : List (κ × α) → κ → Option α
  | [], _ => none
  | (k, v) :: rest, key => if k = key then some v else alistLookup rest key

/-- Replace-in-place insertion in an association list, the embedding of
Python dictionary assignment `d[k] = v`: an existing binding is overwritten
at its position, otherwise the binding is appended. -/
def alistInsert {κ α : Type} [DecidableEq κ] : List (κ × α) → κ → α → List (κ × α)
  | [], k, v => [(k, v)]
  | (k', v') :: rest, k, v =>
      if k' = k then (k', v) :: rest else (k', v') :: alistInsert rest k v

/-- Embedding of Python `d.get(k)` / `d[k]` on a dict-shaped value: `none`
when the key is absent or the value is not a dict. -/
def Json.get (j : Json) (k : String) : Option Json :=
  match j with
  | .obj fields => alistLookup fields k
  | _ => none

/-- Embedding of Python `d.get(k, default)`. -/
def Json.getD (j : Json) (k : String) (d : Json) : Json :=
  (j.get k).getD d

/-- Python truthiness of a JSON value (`if x:`). -/
def Json.truthy : Json → Bool
  | .null => false
  | .bool b => b
  | .num n => n != 0
  | .str s => s != ""
  | .arr elems => !elems.isEmpty
  | .obj fields => !fields.isEmpty

/-! ### Schema extractor (`SchemaManager.extract_database_schema`) -/

/-- Embedding of the `title` part of the schema dict literal:
`database["title"][0]["plain_text"] if database.get("title") else ""`.
A falsy or missing `title` yields the empty string; a truthy non-list
`title`, or a first span without a `plain_text` key, raises. -/
def extractTitle (database : Json) : Except String Json :=
  match database.get "title" with
  | none => .ok (.str "")
  | some t =>
      if t.truthy then
        match t with
        | .arr (x :: _) =>
            match x.get "plain_text" with
            | some pt => .ok pt
            | none => .error "KeyError or TypeError: plain_text"
        | _ => .error "TypeError or KeyError: title is not a sequence of spans"
      else .ok (.str "")

/-- Embedding of one iteration of the property loop: builds
`... = .obj with type and config ...` from a field descriptor, raising on a
descriptor that is not a dict, lacks a `type` key, or whose type tag is
unhashable. -/
def extractProp (name : String) (cfg : Json) : Except String (String × Json) :=
  match cfg.get "type" with
  | some ty =>
      match ty with
      | .str s => .ok (name, .obj [("type", ty), ("config", cfg.getD s (.obj []))])
      | .arr _ => .error "TypeError: unhashable type tag"
      | .obj _ => .error "TypeError: unhashable type tag"
      | _ => .ok (name, .obj [("type", ty), ("config", .obj [])])
  | none =>
      match cfg with
      | .obj _ => .error ("KeyError: type missing on property " ++ name)
      | _ => .error ("TypeError: property descriptor is not a dict: " ++ name)

/-- Embedding of the property loop of `extract_database_schema`, threading
the `schema["properties"]` dict being built. -/
def extractProps : List (String × Json) → List (String × Json) →
    Except String (List (String × Json))
  | [], acc => .ok acc
  | (name, cfg) :: rest, acc =>
      match extractProp name cfg with
      | .ok (k, v) => extractProps rest (alistInsert acc k v)
      | .error e => .error e

/-- Embedding of `SchemaManager.extract_database_schema`
(`src/src/schemas/schema_manager.py`, lines 75-90).  The Python dict literal
evaluates `database["id"]` first, so a missing `id` raises before anything
else; `title` and `properties` are read defensively with `.get`. -/
def extract_database_schema (database : Json) : Except String Json :=
  match database with
  | .obj _ =>
      match database.get "id" with
      | none => .error "KeyError: id"
      | some idv =>
          match extractTitle database with
          | .error e => .error e
          | .ok titleVal =>
              match database.getD "properties" (.obj []) with
              | .obj ps =>
                  match extractProps ps [] with
                  | .ok props =>
                      .ok (.obj [("id", idv), ("title", titleVal),
                                 ("properties", .obj props)])
                  | .error e => .error e
              | _ => .error "AttributeError: properties has no .items"
  | _ => .error "TypeError: database is not a dict"

/-! ### Specification-side extractor (for the refinement claim C4)

The definitions below are written from the specification's words, not from
the source, and are compared with `extract_database_schema` in the C4
theorem. -/

/-- Specification-side title rule: the plain-text value of the first title
span when the title sequence is non-empty, the empty string otherwise
(including a missing title key). -/
def specTitle (database : Json) : Json :=
  match database.get "title" with
  | some (.arr (x :: _)) => x.getD "plain_text" .null
  | _ => .str ""

/-- Specification-side property rule: `type` is the descriptor's type tag
and `config` is the sub-object stored under that type tag in the
descriptor, or an empty object if the type tag is not itself a key of the
descriptor. -/
def specProp (cfg : Json) : Json :=
  .obj [("type", cfg.getD "type" .null),
        ("config", match cfg.get "type" with
                   | some (.str s) => cfg.getD s (.obj [])
                   | _ => .obj [])]

/-- Specification-side extractor: id unchanged, title per `specTitle`,
properties mapped pointwise per `specProp` (missing `properties` treated
as the empty mapping). -/
def specExtract (database : Json) : Json :=
  .obj [("id", database.getD "id" .null),
        ("title", specTitle database),
        ("properties",
          .obj (match database.getD "properties" (.obj []) with
                | .obj ps => ps.map (fun p => (p.1, specProp p.2))
                | _ => []))]

/-! ### Paths and the on-disk schema store (`SchemaManager`)

The store writes files under `get_project_root()/data/schemas/<config>/`.
Paths are embedded the way `pathlib` parses them: a path operand is split on
`/`, empty and `.` components are dropped, a leading `/` makes the operand
absolute and discards the base (every base path in this development is
absolute), and `..` components are kept by `pathlib` but resolved by the
operating system when a file is opened. -/

/-- Splitting a character list on `/` (an executable equivalent of
`String.splitOn "/"`, written over the character list so that it reduces in
the kernel). -/
def splitCharsAux : List Char → List Char → List (List Char)
  | [], cur => [cur.reverse]
  | c :: rest, cur =>
      if c = '/' then cur.reverse :: splitCharsAux rest []
      else splitCharsAux rest (c :: cur)

/-- Whether a string begins with the path separator. -/
def startsWithSlash (s : String) : Bool :=
  match s.data with
  | c :: _ => c = '/'
  | [] => false

/-- Component parsing of one `pathlib` operand: split on `/`, drop empty and
`.` components (`pathlib` keeps `..`). -/
def splitParts (s : String) : List String :=
  ((splitCharsAux s.data []).map (fun cs => String.mk cs)).filter
    (fun c => c != "" && c != ".")

/-- Embedding of `pathlib`'s `/` operator over absolute base paths: an
operand with a leading `/` replaces the base. -/
def pathJoin (base : List String) (s : String) : List String :=
  if startsWithSlash s then splitParts s else base ++ splitParts s

/-- One step of operating-system path resolution: `..` pops the last
component (at the root it stays at the root, as on POSIX). -/
def resolveStep (acc : List String) (c : String) : List String :=
  if c = ".." then acc.dropLast else acc ++ [c]

/-- Operating-system resolution of an absolute component list: resolves the
`..` components that `pathlib` left in place. -/
def resolveParts (cs : List String) : List String :=
  cs.foldl resolveStep []

/-- Components of `get_project_root()`: the absolute directory three levels
above `schema_manager.py`. -/
def projectRootParts : List String := ["home", "user", "notion-chakra-mcp"]

/-- Components of `get_data_dir()`: `project_root / "data" / "schemas"`
(the function also creates this directory, see `smInit`). -/
def dataDirParts : List String :=
  pathJoin (pathJoin projectRootParts "data") "schemas"

/-- Components of `self.schema_dir` for a configuration namespace:
`get_data_dir() / config_name`. -/
def schemaDirParts (config_name : String) : List String :=
  pathJoin dataDirParts config_name

/-- Embedding of `SchemaManager.get_schema_path`:
`self.schema_dir / f"<schema_type>.json"`. -/
def schemaPathParts (config_name schema_type : String) : List String :=
  pathJoin (schemaDirParts config_name) (schema_type ++ ".json")

/-- The file system as the schema store sees it: the set of existing
directories and the stored files, both keyed by resolved absolute component
lists.  File contents are JSON values (see the header note on
serialization). -/
structure FS where
  dirs : List (List String)
  files : List (List String × Json)
deriving Repr, DecidableEq

/-- The empty file system. -/
def FS.empty : FS := ⟨[], []⟩

/-- Embedding of `Path.mkdir(parents=True, exist_ok=True)`: creates the
resolved directory and all its ancestors, keeping existing entries. -/
def mkdirAll (p : List String) (fs : FS) : FS :=
  { fs with
    dirs := fs.dirs ++ ((resolveParts p).inits.filter (fun d => !fs.dirs.contains d)) }

/-- Embedding of `SchemaManager.__init__`: `get_data_dir()` creates the data
directory, then `self.schema_dir.mkdir(parents=True, exist_ok=True)` creates
the namespace partition. -/
def smInit (config_name : String) (fs : FS) : FS :=
  mkdirAll (schemaDirParts config_name) (mkdirAll dataDirParts fs)

/-- Embedding of `SchemaManager.save_schema`: `open(schema_path, "w")`
requires the parent directory to exist (and raises otherwise: the method
re-raises any failure); on success the serialized record overwrites any
prior file at that path. -/
def save_schema (config_name schema_type : String) (schema : Json) (fs : FS) :
    Except String FS :=
  let path := resolveParts (schemaPathParts config_name schema_type)
  if fs.dirs.contains path.dropLast then
    .ok { fs with files := alistInsert fs.files path schema }
  else
    .error "FileNotFoundError: namespace partition does not exist"

/-- Embedding of `SchemaManager.load_schema`: returns `none` when the file
does not exist (the source also returns `None` on unreadable content, a case
that cannot arise at the JSON-value level of this embedding). -/
def load_schema (config_name schema_type : String) (fs : FS) : Option Json :=
  alistLookup fs.files (resolveParts (schemaPathParts config_name schema_type))

/-- Embedding of `SchemaManager.list_schemas`: the stems of the `.json`
files directly inside the namespace partition. -/
def list_schemas_sm (config_name : String) (fs : FS) : List String :=
  (fs.files.filter (fun kv =>
      kv.1.dropLast = resolveParts (schemaDirParts config_name) &&
      (kv.1.getLastD "").endsWith ".json")).map
    (fun kv => (kv.1.getLastD "").dropRight 5)

/-- Embedding of `SchemaManager.list_configs`: the directories directly
inside the data directory (the call also creates the data directory via
`get_data_dir()`, but returns only the enumeration). -/
def list_configs (fs : FS) : List String :=
  ((mkdirAll dataDirParts fs).dirs.filter (fun d =>
      d.dropLast = resolveParts dataDirParts)).map (fun d => d.getLastD "")

/-! ### Pydantic models (`src/src/models/notion.py`) -/

/-- Embedding of the `RichText` pydantic model restricted to the fields the
verified code reads: `type` is required, `plain_text` is optional (the other
fields all have defaults and are never read by the code under
verification). -/
structure RT where
  type : String
  plain_text : Option String
deriving Repr, DecidableEq

/-- Validation of one rich-text span, as pydantic performs it for the
`RichText` model. -/
def validateRT (j : Json) : Except String RT :=
  match j with
  | .obj _ =>
      match j.get "type" with
      | some (.str t) =>
          match j.get "plain_text" with
          | none => .ok ⟨t, none⟩
          | some .null => .ok ⟨t, none⟩
          | some (.str p) => .ok ⟨t, some p⟩
          | some _ => .error "ValidationError: plain_text"
      | some _ => .error "ValidationError: type"
      | none => .error "ValidationError: type missing"
  | _ => .error "ValidationError: rich text span is not a dict"

/-- Embedding of the `Database` pydantic model.  `object`, `id`,
`created_time`, `title` and `properties` have no defaults and are required;
`archived` defaults to `False`.  `properties` is kept as the raw field list:
the `model_post_init` re-wrapping into `DatabaseProperty` objects keeps the
same underlying data and is never read by the code under verification. -/
structure Db where
  object : String
  id : String
  created_time : String
  title : List RT
  properties : List (String × Json)
  archived : Bool
deriving Repr, DecidableEq

/-- Required string field of a pydantic input dict. -/
def reqStr (j : Json) (k : String) : Except String String :=
  match j.get k with
  | some (.str s) => .ok s
  | some _ => .error ("ValidationError: " ++ k)
  | none => .error ("ValidationError: " ++ k ++ " missing")

/-- Embedding of `Database.model_validate`. -/
def model_validate (j : Json) : Except String Db :=
  match j with
  | .obj _ => do
      let o ← reqStr j "object"
      let i ← reqStr j "id"
      let ct ← reqStr j "created_time"
      let title ← match j.get "title" with
        | some (.arr ts) => ts.mapM validateRT
        | some _ => Except.error "ValidationError: title"
        | none => Except.error "ValidationError: title missing"
      let props ← match j.get "properties" with
        | some (.obj ps) => Except.ok ps
        | some _ => Except.error "ValidationError: properties"
        | none => Except.error "ValidationError: properties missing"
      let arch ← match j.get "archived" with
        | none => Except.ok false
        | some (.bool b) => Except.ok b
        | some _ => Except.error "ValidationError: archived"
      .ok ⟨o, i, ct, title, props, arch⟩
  | _ => .error "ValidationError: input is not a dict"

/-- Modelled from the spec: `Database.plain_text_name` is called by
`record_db_index` and `record_db_schemas` in `src/src/setup_tools.py` but is
not defined anywhere under the repository sources.  The spec says the first
title element is used as the plain-text name and that an empty title yields
the empty string. -/
def Db.plain_text_name (db : Db) : String :=
  match db.title with
  | [] => ""
  | rt :: _ => rt.plain_text.getD ""

/-- Embedding of one rich-text span under `model_dump`. -/
def dumpRT (rt : RT) : Json :=
  .obj [("type", .str rt.type), ("text", .obj []), ("annotations", .null),
        ("plain_text", match rt.plain_text with
                       | some p => .str p
                       | none => .null),
        ("href", .null)]

/-- Embedding of `Database.model_dump`. -/
def model_dump (db : Db) : Json :=
  .obj [("object", .str db.object), ("id", .str db.id),
        ("created_time", .str db.created_time), ("last_edited_time", .null),
        ("url", .null), ("public_url", .null),
        ("title", .arr (db.title.map dumpRT)), ("description", .arr []),
        ("properties", .obj db.properties), ("archived", .bool db.archived)]

/-! ### Remote gateway (`src/src/notion_tools.py`)

`list_databases` and `get_database` are embedded as functions of the outcome
of the single underlying client call they make.  The source imports
`tenacity`'s retry helpers but applies them to nothing: each operation calls
the client exactly once, and its `except` clause converts any failure into
the dictionary produced by `NotionClientError.to_dict`, returned as an
ordinary value. -/

/-- Embedding of the dictionary built by `NotionClientError.to_dict`. -/
structure ErrDict where
  success : Bool
  error : Bool
  message : String
  status : Nat
deriving Repr, DecidableEq

/-- The error dictionary returned by the gateway's `except` clauses
(`HTTP_400_BAD_REQUEST`). -/
def errDict (message : String) : ErrDict := ⟨false, true, message, 400⟩

/-- Embedding of the per-database projection inside `list_databases`:
`{"id": db["id"], "title": db["title"][0]["plain_text"]}`. -/
def projectDb (db : Json) : Except String Json := do
  let idv ← match db.get "id" with
    | some v => Except.ok v
    | none => Except.error "KeyError: id"
  let pt ← match db.get "title" with
    | some (.arr (x :: _)) =>
        match x.get "plain_text" with
        | some v => Except.ok v
        | none => Except.error "KeyError: plain_text"
    | some (.arr []) => Except.error "IndexError: list index out of range"
    | some _ => Except.error "TypeError: title"
    | none => Except.error "KeyError: title"
  .ok (.obj [("id", idv), ("title", pt)])

/-- Embedding of `list_databases` (`src/src/notion_tools.py`, lines 46-61)
as a function of the one `client.search` outcome: on success the projected
id/title list, on any failure the `to_dict` error dictionary returned as a
normal value. -/
def list_databases (searchResult : Except String Json) : List Json ⊕ ErrDict :=
  match (do
    let resp ← searchResult
    let dbs ← match resp.get "results" with
      | some (.arr l) => Except.ok l
      | some _ => Except.error "TypeError: results"
      | none => Except.error "KeyError: results"
    dbs.mapM projectDb : Except String (List Json)) with
  | .ok l => .inl l
  | .error e => .inr (errDict ("Failed to list databases: " ++ e))

/-- Embedding of `get_database` (`src/src/notion_tools.py`, lines 63-75) as
a function of the one `client.databases.retrieve` outcome. -/
def get_database (retrieveResult : Except String Json) : Json ⊕ ErrDict :=
  match retrieveResult with
  | .ok r => .inl r
  | .error e => .inr (errDict ("Failed to get database: " ++ e))

/-! ### Sync orchestrator (`src/src/setup_tools.py`)

The external memory service is embedded as an oracle deciding whether each
call raises, plus an explicit log of the writes that succeeded.  The
`schema_prefix` parameter of the source is named `schemaPfx` here. -/

/-- One write accepted by the external memory service. -/
inductive MemWrite where
  | saveMemoryText (text : String)
  | updateMemory (key : String) (data : Json)
deriving Repr, DecidableEq

/-- The index-building loop of `record_db_index`: `index[name] = db.id` in
input order over a Python dict. -/
def buildIndex : List Db → List (String × String) → List (String × String)
  | [], acc => acc
  | db :: rest, acc => buildIndex rest (alistInsert acc db.plain_text_name db.id)

/-- Embedding of `record_db_index` (`src/src/setup_tools.py`, lines 36-73).
The source computes `memory = f"..."` from `index_key` and the serialized
index but never stores it: the `save_memory` call stores the literal text
`"memory"`.  A failing memory call is re-raised (`raise` in the `except`
clause); on success the built index is returned. -/
def record_db_index (index_key : String) (saveFails : Option String)
    (dbs : List Db) :
    Except String (List (String × String) × List MemWrite) :=
  let index := buildIndex dbs []
  match saveFails with
  | some e => .error e
  | none => .ok (index, [.saveMemoryText "memory"])

/-- Result dictionary of `record_db_schemas`, extended with the log of the
`update_memory` writes that succeeded. -/
structure RecordResult where
  success : Bool
  errors : List String
  writes : List (String × Json)
deriving Repr, DecidableEq

/-- The loop of `record_db_schemas`.  The `try` of the source wraps the
whole `for` loop: the first failing `update_memory` call is caught, one
error message is appended, `success` is set to `False`, and the remaining
databases are not processed. -/
def record_db_schemas_go (updateFails : String → Json → Option String)
    (schemaPfx : String) :
    List Db → List (String × Json) → RecordResult
  | [], ws => ⟨true, [], ws⟩
  | db :: rest, ws =>
      let key := schemaPfx ++ "." ++ db.id
      let data := model_dump db
      match updateFails key data with
      | none => record_db_schemas_go updateFails schemaPfx rest (ws ++ [(key, data)])
      | some e =>
          ⟨false,
           ["Failed to record schema for database " ++ db.id ++ ": " ++ e],
           ws⟩

/-- Embedding of `record_db_schemas` (`src/src/setup_tools.py`, lines
75-104). -/
def record_db_schemas (updateFails : String → Json → Option String)
    (schemaPfx : String) (dbs : List Db) : RecordResult :=
  record_db_schemas_go updateFails schemaPfx dbs []

/-- Embedding of `sync_databases` (`src/src/setup_tools.py`, lines 116-127):
discovery through the gateway's `list_databases`, validation of every item
through `Database.model_validate` (a list comprehension, so the first
validation failure raises and aborts the pass), then `record_db_index` and
`record_db_schemas`.  When `list_databases` returned its error dictionary,
the comprehension iterates the dictionary's string keys and
`model_validate` of a string raises.  The returned triple is the built
index, the `record_db_schemas` result, and the log of successful external
memory writes. -/
def sync_databases (index_key : String) (schemaPfx : String)
    (searchResult : Except String Json) (saveFails : Option String)
    (updateFails : String → Json → Option String) :
    Except String (List (String × String) × RecordResult × List MemWrite) := do
  let data ← match list_databases searchResult with
    | .inl dbs => Except.ok dbs
    | .inr _ => Except.error "ValidationError: input is not a dict"
  let databases ← data.mapM model_validate
  let r ← record_db_index index_key saveFails databases
  let results := record_db_schemas updateFails schemaPfx databases
  .ok (r.1, results,
       r.2 ++ results.writes.map (fun kv => MemWrite.updateMemory kv.1 kv.2))

/-! ### Schema tools (`src/src/schema_tools.py`)

The MCP client is embedded as a gateway oracle giving the outcome of the
`notion_list_databases` call and of each `notion_get_database` call. -/

/-- Gateway oracle for `fetch_schemas`. -/
structure Gateway where
  listResp : Except String Json
  getDb : String → Except String Json

/-- Python `str()` of a JSON value, as used by the f-string building the
schema file name.  The exact rendering of lists and dicts is not modelled:
on those values `fetch_schemas` raises at the following dictionary
assignment (unhashable key), so no verified path depends on it. -/
def pyStr : Json → String
  | .str s => s
  | .null => "None"
  | .bool true => "True"
  | .bool false => "False"
  | .num n => toString n
  | .arr _ => "<list>"
  | .obj _ => "<dict>"

/-- Embedding of the logging comprehension of `fetch_schemas`:
`db["title"][0]["plain_text"]`, which raises on a database without a
well-formed title. -/
def dbNameOf (db : Json) : Except String Json :=
  match db.get "title" with
  | some (.arr (x :: _)) =>
      match x.get "plain_text" with
      | some v => .ok v
      | none => .error "KeyError: plain_text"
  | some (.arr []) => .error "IndexError: list index out of range"
  | some _ => .error "TypeError: title"
  | none => .error "KeyError: title"

/-- The per-database loop of `fetch_schemas`: retrieve the database details,
extract the schema, save it to the store under the schema's own title, and
record it in the `schemas` dict (a Python dict, so an unhashable title
raises and a duplicate title overwrites). -/
def fetchGo (gw : Gateway) (config : String) :
    List Json → List (Json × Json) → FS → Except String (List (Json × Json) × FS)
  | [], schemas, fs => .ok (schemas, fs)
  | db :: rest, schemas, fs => do
      let dbId ← match db.get "id" with
        | some v => Except.ok v
        | none => Except.error "KeyError: id"
      let idStr ← match dbId with
        | .str s => Except.ok s
        | _ => Except.error "ValidationError: database_id"
      let details ← gw.getDb idStr
      let schema ← extract_database_schema details
      let dbName := schema.getD "title" .null
      let fs' ← save_schema config (pyStr dbName) schema fs
      match dbName with
      | .arr _ => Except.error "TypeError: unhashable name"
      | .obj _ => Except.error "TypeError: unhashable name"
      | _ => fetchGo gw config rest (alistInsert schemas dbName schema) fs'

/-- Embedding of `fetch_schemas` (`src/src/schema_tools.py`, lines 21-69):
constructs a `SchemaManager` (creating the partition), lists the databases
through the client, evaluates the logging comprehension, then runs the
per-database loop; any failure is re-raised. -/
def fetch_schemas (gw : Gateway) (config : String) (fs : FS) :
    Except String (List (Json × Json) × FS) := do
  let fs0 := smInit config fs
  let resp ← gw.listResp
  let databases ← match resp with
    | .arr l => Except.ok l
    | _ => Except.error "TypeError: response is not a list"
  let _ ← databases.mapM dbNameOf
  fetchGo gw config databases [] fs0

/-- The cache-miss fallback of `get_schema`: one `fetch_schemas` pass, then
`schemas.get(database_name)`.  The middle component of the result counts the
`fetch_schemas` invocations performed. -/
def getSchemaFallback (gw : Gateway) (database_name config : String) (fs0 : FS) :
    Except String (Option Json × Nat × FS) :=
  match fetch_schemas gw config fs0 with
  | .ok (schemas, fs') => .ok (alistLookup schemas (.str database_name), 1, fs')
  | .error e => .error e

/-- Embedding of `get_schema` (`src/src/schema_tools.py`, lines 72-93):
constructs a `SchemaManager`, tries `load_schema` first, and falls back to a
full `fetch_schemas` pass when the loaded value is missing or falsy
(`if schema:`). -/
def get_schema (gw : Gateway) (database_name config : String) (fs : FS) :
    Except String (Option Json × Nat × FS) :=
  let fs0 := smInit config fs
  match load_schema config database_name fs0 with
  | some schema =>
      if schema.truthy then .ok (some schema, 0, fs0)
      else getSchemaFallback gw database_name config fs0
  | none => getSchemaFallback gw database_name config fs0

/-! ### Auxiliary definitions used by the theorems below -/

/-- The identifier the index holds for a name after processing a database
list: the id of the last database in the list bearing that plain-text
name. -/
def lastIdFor (n : String) : List Db → Option String
  | [] => none
  | db :: rest =>
      match lastIdFor n rest with
      | some i => some i
      | none => if db.plain_text_name = n then some db.id else none

/-- A string that `pathlib` parses as one plain relative path component:
splitting yields the string itself, it is not absolute, and it is not the
parent-directory component. -/
def plainComponentStr (s : String) : Prop :=
  splitParts s = [s] ∧ startsWithSlash s = false ∧ s ≠ ".."

/-- A sample schema record (shape produced by the extractor). -/
def exRecord : Json :=
  .obj [("id", .str "A1"), ("title", .str "Tasks"), ("properties", .obj [])]

/-- The store after saving `exRecord` as "Tasks" in namespace "default". -/
def exFS2 : FS :=
  { smInit "default" FS.empty with
    files := [(resolveParts (schemaPathParts "default" "Tasks"), exRecord)] }

/-- A validated database named "Tasks" with id "A1". -/
def exDbA : Db :=
  ⟨"database", "A1", "2024-01-01T00:00:00.000Z", [⟨"text", some "Tasks"⟩], [], false⟩

/-- A validated database named "Projects" with id "B1". -/
def exDbB : Db :=
  ⟨"database", "B1", "2024-01-01T00:00:00.000Z", [⟨"text", some "Projects"⟩], [], false⟩

/-- A validated database also named "Tasks" but with id "B1". -/
def exDbA2 : Db :=
  ⟨"database", "B1", "2024-01-01T00:00:00.000Z", [⟨"text", some "Tasks"⟩], [], false⟩

/-- A memory service on which exactly the `update_memory` call for key
"schema.A1" raises. -/
def exUpdateFailsA1 : String → Json → Option String :=
  fun k _ => if k = "schema.A1" then some "boom" else none

/-- A raw remote database description with the given id and plain-text
title. -/
def rawDb (i t : String) : Json :=
  .obj [("id", .str i),
        ("title", .arr [.obj [("type", .str "text"), ("plain_text", .str t)]]),
        ("object", .str "database"),
        ("created_time", .str "2024-01-01T00:00:00.000Z"),
        ("properties", .obj [])]

/-- The discovery outcome of the concrete scenario of claim C2: the remote
search returns the databases "Tasks" (id A1) and "Projects" (id B1). -/
def c2SearchResult : Except String Json :=
  .ok (.obj [("results", .arr [rawDb "A1" "Tasks", rawDb "B1" "Projects"])])

/-- A gateway whose list call returns one database (id A1, title "Tasks")
and whose retrieve call returns its full description. -/
def exGateway : Gateway :=
  ⟨.ok (.arr [.obj [("id", .str "A1"),
                    ("title", .arr [.obj [("plain_text", .str "Tasks")]])]]),
   fun i => .ok (.obj [("id", .str i),
                       ("title", .arr [.obj [("plain_text", .str "Tasks")]]),
                       ("properties", .obj [])])⟩

/-- The successful outcome of a `fetch_schemas` pass of `exGateway` over the
empty store (used to state the C7 witness without repeating the value). -/
def exFetchOut : List (Json × Json) × FS :=
  match fetch_schemas exGateway "default" (smInit "default" FS.empty) with
  | .ok p => p
  | .error _ => ([], FS.empty)

/-- The store after saving `exRecord` as "Tasks" in namespace "work" (used
by the C6 witness). -/
def exFS3 : FS :=
  match save_schema "work" "Tasks" exRecord (smInit "work" FS.empty) with
  | .ok f => f
  | .error _ => FS.empty

/-!
## Theorems

General lemmas about the embedded dictionaries and paths, followed by one
theorem (plus witness or counterexample) per claim.
-/

theorem alistLookup_insert_self {κ α : Type} [DecidableEq κ]
    (l : List (κ × α)) (k : κ) (v : α) :
    alistLookup (alistInsert l k v) k = some v := by
  induction l with
  | nil => simp [alistInsert, alistLookup]
  | cons p rest ih =>
      obtain ⟨k2, v2⟩ := p
      by_cases h : k2 = k
      · simp [alistInsert, h, alistLookup]
      · simp [alistInsert, h, alistLookup, ih]

theorem alistLookup_insert_ne {κ α : Type} [DecidableEq κ]
    (l : List (κ × α)) (k k' : κ) (v : α) (h : k ≠ k') :
    alistLookup (alistInsert l k v) k' = alistLookup l k' := by
  induction l with
  | nil => simp [alistInsert, alistLookup, h]
  | cons p rest ih =>
      obtain ⟨k2, v2⟩ := p
      by_cases h2 : k2 = k
      · subst h2
        simp [alistInsert, alistLookup, h]
      · by_cases h3 : k2 = k'
        · subst h3
          simp [alistInsert, h2, alistLookup]
        · simp [alistInsert, h2, alistLookup, h3, ih]

theorem alistInsert_of_not_mem {κ α : Type} [DecidableEq κ]
    (l : List (κ × α)) (k : κ) (v : α) (h : k ∉ l.map Prod.fst) :
    alistInsert l k v = l ++ [(k, v)] := by
  induction l with
  | nil => rfl
  | cons p rest ih =>
      obtain ⟨k2, v2⟩ := p
      simp only [List.map_cons, List.mem_cons] at h
      push_neg at h
      have hk2 : ¬ k2 = k := fun hh => h.1 hh.symm
      simp [alistInsert, hk2, ih h.2]

theorem foldl_resolveStep_no_dotdot (l acc : List String)
    (h : ∀ c ∈ l, c ≠ "..") : l.foldl resolveStep acc = acc ++ l := by
  induction l generalizing acc with
  | nil => simp
  | cons c rest ih =>
      have hc : c ≠ ".." := h c (by simp)
      simp only [List.foldl_cons, resolveStep, if_neg hc]
      rw [ih (acc ++ [c]) (fun d hd => h d (by simp [hd]))]
      simp

theorem resolveParts_no_dotdot (l : List String) (h : ∀ c ∈ l, c ≠ "..") :
    resolveParts l = l := by
  simpa using foldl_resolveStep_no_dotdot l [] h

theorem append_json_ne_dotdot (name : String) : name ++ ".json" ≠ ".." := by
  intro h
  have hlen := congrArg String.length h
  rw [String.length_append] at hlen
  have h5 : (".json" : String).length = 5 := rfl
  have h2 : (".." : String).length = 2 := rfl
  omega

theorem dataDirParts_eq :
    dataDirParts = ["home", "user", "notion-chakra-mcp", "data", "schemas"] := rfl

theorem schemaPathParts_of_plain (n name : String) (hn : plainComponentStr n)
    (hc : splitParts (name ++ ".json") = [name ++ ".json"])
    (habs : startsWithSlash (name ++ ".json") = false) :
    schemaPathParts n name = dataDirParts ++ [n, name ++ ".json"] := by
  obtain ⟨h1, h2, _⟩ := hn
  simp [schemaPathParts, schemaDirParts, pathJoin, h2, habs, h1, hc]

theorem resolveParts_schemaPath_plain (n name : String)
    (hn : plainComponentStr n)
    (hc : splitParts (name ++ ".json") = [name ++ ".json"])
    (habs : startsWithSlash (name ++ ".json") = false) :
    resolveParts (schemaPathParts n name) = dataDirParts ++ [n, name ++ ".json"] := by
  rw [schemaPathParts_of_plain n name hn hc habs]
  apply resolveParts_no_dotdot
  intro c hcm
  rcases List.mem_append.1 hcm with hd | hd
  · rw [dataDirParts_eq] at hd
    simp only [List.mem_cons, List.not_mem_nil, or_false] at hd
    rcases hd with rfl | rfl | rfl | rfl | rfl <;> decide
  · simp only [List.mem_cons, List.not_mem_nil, or_false] at hd
    rcases hd with rfl | rfl
    · exact hn.2.2
    · exact append_json_ne_dotdot name

theorem smInit_files (c : String) (fs : FS) : (smInit c fs).files = fs.files := rfl

/-- C3: for every namespace, schema name and record, saving through a Store
for that namespace and then loading the same name through a Store for the
same namespace returns the saved record (the save-success outcome is a
hypothesis: a save that raises, e.g. for a name escaping the partition,
never completes the call sequence the claim describes). -/
theorem save_then_load_roundtrip (fs fs' : FS) (n name : String) (r : Json)
    (hsave : save_schema n name r (smInit n fs) = .ok fs') :
    load_schema n name (smInit n fs') = some r := by
  simp only [save_schema] at hsave
  split at hsave
  · simp only [Except.ok.injEq] at hsave
    subst hsave
    simp only [load_schema, smInit_files]
    exact alistLookup_insert_self _ _ _
  · exact Except.noConfusion hsave

/-- C3 witness: a concrete save followed by a load returns the saved
record. -/
theorem save_then_load_roundtrip_witness :
    save_schema "default" "Tasks" exRecord (smInit "default" FS.empty) = .ok exFS2 ∧
    load_schema "default" "Tasks" (smInit "default" exFS2) = some exRecord :=
  ⟨by rfl, save_then_load_roundtrip FS.empty exFS2 "default" "Tasks" exRecord (by rfl)⟩

/-- C6 counterexample: "work/" and "work" are distinct namespace strings,
yet a record saved under namespace "work/" is visible via `load` on a Store
for namespace "work": `pathlib` drops the trailing slash, so both
namespaces denote the same partition. -/
theorem namespace_collision_counterexample :
    ("work/" : String) ≠ "work" ∧
    (save_schema "work/" "Tasks" exRecord (smInit "work/" FS.empty)).map
        (fun fs2 => load_schema "work" "Tasks" (smInit "work" fs2)) =
      .ok (some exRecord) :=
  ⟨by decide, by rfl⟩

/-- C6 amended: distinct namespaces that are plain path components (no
separator, not absolute, not a traversal component) never collide: for a
schema name that is itself a single component, a record saved in one
namespace is not visible from the other. -/
theorem namespace_isolation (n1 n2 name : String) (r : Json) (fs fs' : FS)
    (h1 : plainComponentStr n1) (h2 : plainComponentStr n2) (hne : n1 ≠ n2)
    (hc : splitParts (name ++ ".json") = [name ++ ".json"])
    (habs : startsWithSlash (name ++ ".json") = false)
    (hsave : save_schema n1 name r fs = .ok fs') :
    load_schema n2 name fs' = load_schema n2 name fs := by
  simp only [save_schema] at hsave
  split at hsave
  · simp only [Except.ok.injEq] at hsave
    subst hsave
    simp only [load_schema]
    apply alistLookup_insert_ne
    rw [resolveParts_schemaPath_plain n1 name h1 hc habs,
        resolveParts_schemaPath_plain n2 name h2 hc habs]
    intro heq
    have := List.append_cancel_left heq
    simp only [List.cons.injEq] at this
    exact hne this.1
  · exact Except.noConfusion hsave

/-- C6 witness: a record saved under "work" is not visible from
"personal". -/
theorem namespace_isolation_witness :
    save_schema "work" "Tasks" exRecord (smInit "work" FS.empty) = .ok exFS3 ∧
    load_schema "personal" "Tasks" exFS3 =
      load_schema "personal" "Tasks" (smInit "work" FS.empty) :=
  ⟨by rfl,
   namespace_isolation "work" "personal" "Tasks" exRecord
     (smInit "work" FS.empty) exFS3
     ⟨rfl, rfl, by decide⟩ ⟨rfl, rfl, by decide⟩ (by decide) rfl rfl (by rfl)⟩

theorem self_mem_mkdirAll (p : List String) (fs : FS) :
    resolveParts p ∈ (mkdirAll p fs).dirs := by
  simp only [mkdirAll]
  by_cases h : resolveParts p ∈ fs.dirs
  · exact List.mem_append_left _ h
  · apply List.mem_append_right
    apply List.mem_filter.2
    refine ⟨(List.mem_inits _ _).2 (List.prefix_refl _), ?_⟩
    simp [List.contains, List.elem_iff, h]

/-- C8 counterexample: constructing a Store for a fresh namespace creates
the namespace partition on its own, before any save: the claim that only
`save` creates the partition is false on the code, whose `__init__` runs
`mkdir(parents=True, exist_ok=True)`. -/
theorem store_init_creates_partition_counterexample :
    FS.empty.dirs = [] ∧
    resolveParts (schemaDirParts "work") ∈ (smInit "work" FS.empty).dirs ∧
    (smInit "work" FS.empty).files = FS.empty.files := by
  refine ⟨rfl, ?_, rfl⟩
  decide

/-- C8 amended: the namespace partition is created eagerly at Store
construction (which writes no file and removes no directory); `save` itself
never creates or removes a partition — it only inserts the record's file,
and it fails when the partition is absent. -/
theorem store_partition_lifecycle (config : String) (fs : FS) :
    resolveParts (schemaDirParts config) ∈ (smInit config fs).dirs ∧
    (smInit config fs).files = fs.files ∧
    fs.dirs ⊆ (smInit config fs).dirs ∧
    (∀ name r fs', save_schema config name r fs = .ok fs' →
        fs'.dirs = fs.dirs ∧
        fs'.files =
          alistInsert fs.files (resolveParts (schemaPathParts config name)) r) ∧
    (∀ name r,
        (resolveParts (schemaPathParts config name)).dropLast ∉ fs.dirs →
        save_schema config name r fs =
          .error "FileNotFoundError: namespace partition does not exist") := by
  refine ⟨self_mem_mkdirAll _ _, rfl, ?_, ?_, ?_⟩
  · intro d hd
    simp only [smInit, mkdirAll]
    exact List.mem_append_left _ (List.mem_append_left _ hd)
  · intro name r fs' hs
    simp only [save_schema] at hs
    split at hs
    · simp only [Except.ok.injEq] at hs
      subst hs
      exact ⟨rfl, rfl⟩
    · exact Except.noConfusion hs
  · intro name r h
    simp [save_schema, h]

/-- C8 amended witness: instantiated at namespace "work" over the empty
file system, including a failing save against the missing partition. -/
theorem store_partition_lifecycle_witness :
    resolveParts (schemaDirParts "work") ∈ (smInit "work" FS.empty).dirs ∧
    (smInit "work" FS.empty).files = FS.empty.files ∧
    save_schema "work" "Tasks" exRecord FS.empty =
      .error "FileNotFoundError: namespace partition does not exist" :=
  ⟨(store_partition_lifecycle "work" FS.empty).1,
   (store_partition_lifecycle "work" FS.empty).2.1,
   (store_partition_lifecycle "work" FS.empty).2.2.2.2 "Tasks" exRecord
     (List.not_mem_nil _)⟩

theorem record_db_schemas_go_all_ok (updateFails : String → Json → Option String)
    (schemaPfx : String) (dbs : List Db) (ws : List (String × Json))
    (h : ∀ db ∈ dbs, updateFails (schemaPfx ++ "." ++ db.id) (model_dump db) = none) :
    record_db_schemas_go updateFails schemaPfx dbs ws =
      ⟨true, [],
       ws ++ dbs.map (fun db => (schemaPfx ++ "." ++ db.id, model_dump db))⟩ := by
  induction dbs generalizing ws with
  | nil => simp [record_db_schemas_go]
  | cons db rest ih =>
      have hdb := h db (by simp)
      simp only [record_db_schemas_go, hdb]
      rw [ih (ws ++ [(schemaPfx ++ "." ++ db.id, model_dump db)])
            (fun d hd => h d (by simp [hd]))]
      simp

theorem record_db_schemas_go_stops (updateFails : String → Json → Option String)
    (schemaPfx : String) (pre post : List Db) (bad : Db) (e : String)
    (ws : List (String × Json))
    (hpre : ∀ db ∈ pre, updateFails (schemaPfx ++ "." ++ db.id) (model_dump db) = none)
    (hbad : updateFails (schemaPfx ++ "." ++ bad.id) (model_dump bad) = some e) :
    record_db_schemas_go updateFails schemaPfx (pre ++ bad :: post) ws =
      ⟨false,
       ["Failed to record schema for database " ++ bad.id ++ ": " ++ e],
       ws ++ pre.map (fun db => (schemaPfx ++ "." ++ db.id, model_dump db))⟩ := by
  induction pre generalizing ws with
  | nil => simp [record_db_schemas_go, hbad]
  | cons db rest ih =>
      have hdb := hpre db (by simp)
      simp only [List.cons_append, record_db_schemas_go, hdb, List.append_eq]
      rw [ih (ws ++ [(schemaPfx ++ "." ++ db.id, model_dump db)])
            (fun d hd => hpre d (by simp [hd]))]
      simp

theorem record_db_schemas_success_iff (updateFails : String → Json → Option String)
    (schemaPfx : String) (dbs : List Db) (ws : List (String × Json)) :
    (record_db_schemas_go updateFails schemaPfx dbs ws).success =
      (record_db_schemas_go updateFails schemaPfx dbs ws).errors.isEmpty := by
  induction dbs generalizing ws with
  | nil => simp [record_db_schemas_go]
  | cons db rest ih =>
      simp only [record_db_schemas_go]
      cases updateFails (schemaPfx ++ "." ++ db.id) (model_dump db) with
      | none => exact ih _
      | some e => simp

/-- C1 counterexample: a discovery list of two validated databases in which
exactly the first one's storage fails.  The claim predicts the other
`N-1 = 1` schema is still stored; the code's `try` wraps the whole loop, so
processing stops and zero schemas are stored. -/
theorem sync_partial_failure_counterexample :
    (record_db_schemas exUpdateFailsA1 "schema" [exDbA, exDbB]).success = false ∧
    (record_db_schemas exUpdateFailsA1 "schema" [exDbA, exDbB]).errors.length = 1 ∧
    (record_db_schemas exUpdateFailsA1 "schema" [exDbA, exDbB]).writes.length ≠
      [exDbA, exDbB].length - 1 := by
  refine ⟨rfl, rfl, ?_⟩
  decide

/-- C1 amended: a storage failure on one database is caught, appended as the
single error entry, and sets `success = False`, but it aborts the loop: the
databases before the failing one are stored and the ones after it are not.
The pass still reports success exactly when the errors list is empty. -/
theorem sync_partial_failure_amended :
    (∀ (updateFails : String → Json → Option String) (schemaPfx : String)
       (pre post : List Db) (bad : Db) (e : String),
       (∀ db ∈ pre,
          updateFails (schemaPfx ++ "." ++ db.id) (model_dump db) = none) →
       updateFails (schemaPfx ++ "." ++ bad.id) (model_dump bad) = some e →
       record_db_schemas updateFails schemaPfx (pre ++ bad :: post) =
         ⟨false,
          ["Failed to record schema for database " ++ bad.id ++ ": " ++ e],
          pre.map (fun db => (schemaPfx ++ "." ++ db.id, model_dump db))⟩) ∧
    (∀ (updateFails : String → Json → Option String) (schemaPfx : String)
       (dbs : List Db),
       (record_db_schemas updateFails schemaPfx dbs).success =
         (record_db_schemas updateFails schemaPfx dbs).errors.isEmpty) := by
  constructor
  · intro updateFails schemaPfx pre post bad e hpre hbad
    have := record_db_schemas_go_stops updateFails schemaPfx pre post bad e [] hpre hbad
    simpa [record_db_schemas] using this
  · intro updateFails schemaPfx dbs
    exact record_db_schemas_success_iff updateFails schemaPfx dbs []

/-- C1 amended witness: with the failing database second, the first schema
is stored, one error is recorded, and success is false. -/
theorem sync_partial_failure_amended_witness :
    exUpdateFailsA1 ("schema" ++ "." ++ exDbB.id) (model_dump exDbB) = none ∧
    exUpdateFailsA1 ("schema" ++ "." ++ exDbA.id) (model_dump exDbA) = some "boom" ∧
    record_db_schemas exUpdateFailsA1 "schema" [exDbB, exDbA] =
      ⟨false, ["Failed to record schema for database " ++ exDbA.id ++ ": boom"],
       [("schema" ++ "." ++ exDbB.id, model_dump exDbB)]⟩ ∧
    (record_db_schemas exUpdateFailsA1 "schema" [exDbA]).success =
      (record_db_schemas exUpdateFailsA1 "schema" [exDbA]).errors.isEmpty :=
  ⟨by decide, by decide,
   by
     have h := sync_partial_failure_amended.1 exUpdateFailsA1 "schema"
       [exDbB] [] exDbA "boom"
       (by intro db hdb; simp at hdb; subst hdb; decide) (by decide)
     simpa using h,
   sync_partial_failure_amended.2 exUpdateFailsA1 "schema" [exDbA]⟩

/-- C2: evaluated at the claim's concrete scenario, the sync pass does not
produce the claimed state.  `list_databases` projects each discovered
database to an id/plain-title pair, `Database.model_validate` then rejects
that shape (missing `object`, `created_time`, rich-text `title`,
`properties`), so the pass raises before writing anything; and even on
validated databases `record_db_index` stores the literal text "memory"
through `save_memory` rather than the index mapping under the index key,
while `sync_databases` never touches the local Schema Store at all. -/
theorem sync_scenario_evaluation :
    sync_databases "idx" "schema" c2SearchResult none (fun _ _ => none) =
      .error "ValidationError: object missing" ∧
    record_db_index "idx" none [exDbA, exDbB] =
      .ok ([("Tasks", "A1"), ("Projects", "B1")],
           [.saveMemoryText "memory"]) :=
  ⟨rfl, rfl⟩

theorem lastIdFor_append (n : String) (a b : List Db) :
    lastIdFor n (a ++ b) =
      match lastIdFor n b with
      | some i => some i
      | none => lastIdFor n a := by
  induction a with
  | nil => cases h : lastIdFor n b <;> simp [lastIdFor, h]
  | cons db rest ih =>
      simp only [List.cons_append, lastIdFor, List.append_eq]
      rw [ih]
      cases lastIdFor n b <;> cases lastIdFor n rest <;> simp

theorem lastIdFor_none (n : String) (l : List Db)
    (h : ∀ db ∈ l, db.plain_text_name ≠ n) : lastIdFor n l = none := by
  induction l with
  | nil => rfl
  | cons db rest ih =>
      simp only [lastIdFor, ih (fun d hd => h d (by simp [hd]))]
      simp [h db (by simp)]

theorem buildIndex_lookup (dbs : List Db) (acc : List (String × String))
    (n : String) :
    alistLookup (buildIndex dbs acc) n =
      match lastIdFor n dbs with
      | some i => some i
      | none => alistLookup acc n := by
  induction dbs generalizing acc with
  | nil => simp [buildIndex, lastIdFor]
  | cons db rest ih =>
      simp only [buildIndex, lastIdFor, ih]
      cases h : lastIdFor n rest with
      | some i => simp
      | none =>
          by_cases hn : db.plain_text_name = n
          · simp [hn, alistLookup_insert_self]
          · simp [hn, alistLookup_insert_ne _ _ _ _ hn]

/-- C5: with exactly two databases of the same plain-text name in the input
sequence, the built index maps that name to the identifier of the one that
appears later (last write wins). -/
theorem index_last_write_wins (l1 l2 l3 : List Db) (d1 d2 : Db) (n : String)
    (_h1 : d1.plain_text_name = n) (h2 : d2.plain_text_name = n)
    (_hid : d1.id ≠ d2.id)
    (hothers : ∀ db ∈ l1 ++ l2 ++ l3, db.plain_text_name ≠ n) :
    alistLookup (buildIndex (l1 ++ d1 :: (l2 ++ d2 :: l3)) []) n = some d2.id := by
  have hl1 : ∀ db ∈ l1, db.plain_text_name ≠ n :=
    fun db hd => hothers db (by simp [hd])
  have hl2 : ∀ db ∈ l2, db.plain_text_name ≠ n :=
    fun db hd => hothers db (by simp [hd])
  have hl3 : ∀ db ∈ l3, db.plain_text_name ≠ n :=
    fun db hd => hothers db (by simp [hd])
  have key : lastIdFor n (l1 ++ d1 :: (l2 ++ d2 :: l3)) = some d2.id := by
    rw [lastIdFor_append]
    have htail : lastIdFor n (d1 :: (l2 ++ d2 :: l3)) = some d2.id := by
      have hmid : lastIdFor n (l2 ++ d2 :: l3) = some d2.id := by
        rw [lastIdFor_append]
        simp [lastIdFor, lastIdFor_none n l3 hl3, h2]
      simp [lastIdFor, hmid]
    simp [htail]
  rw [buildIndex_lookup, key]

/-- C5 witness: two databases both named "Tasks", ids "A1" then "B1"; the
index maps "Tasks" to "B1". -/
theorem index_last_write_wins_witness :
    exDbA.plain_text_name = "Tasks" ∧ exDbA2.plain_text_name = "Tasks" ∧
    exDbA.id ≠ exDbA2.id ∧
    alistLookup (buildIndex [exDbA, exDbA2] []) "Tasks" = some exDbA2.id :=
  ⟨rfl, rfl, by decide,
   index_last_write_wins [] [] [] exDbA exDbA2 "Tasks" rfl rfl (by decide)
     (by intro db hdb; simp at hdb)⟩

/-- C9 counterexample: when the one underlying client call fails, the
gateway operation neither retries nor propagates a typed error: it returns
the `to_dict` dictionary as a normal value. -/
theorem gateway_error_counterexample :
    list_databases (.error "boom") =
      .inr ⟨false, true, "Failed to list databases: boom", 400⟩ := rfl

/-- C9 amended: each gateway operation makes a single client attempt (the
retry helpers are imported but never applied); on failure it catches the
exception and returns the structured error dictionary with
`success=False`, `error=True` and status 400 as an ordinary return value,
instead of retrying or raising a typed error. -/
theorem gateway_single_attempt_error_dict (e : String) :
    list_databases (.error e) =
      .inr (errDict ("Failed to list databases: " ++ e)) ∧
    get_database (.error e) =
      .inr (errDict ("Failed to get database: " ++ e)) ∧
    (errDict ("Failed to list databases: " ++ e)).success = false ∧
    (errDict ("Failed to list databases: " ++ e)).status = 400 :=
  ⟨rfl, rfl, rfl, rfl⟩

/-- C7: `get_schema` is cache-first.  When the Store for the namespace holds
a (truthy) record under the name, it is returned with no sync; when the
Store holds nothing under the name, exactly one full `fetch_schemas` pass
runs and the result is the post-sync record for the name, or `none` (an
absent signal, not an exception) when the post-sync result lacks it.  The
middle component of the result counts the sync passes performed.  (A stored
record is a schema record, i.e. a non-empty object, hence truthy; the
success of the sync pass is a hypothesis since a failing gateway re-raises.) -/
theorem get_schema_cache_first (gw : Gateway) (name config : String) (fs : FS) :
    (∀ r, load_schema config name (smInit config fs) = some r →
       r.truthy = true →
       get_schema gw name config fs = .ok (some r, 0, smInit config fs)) ∧
    (load_schema config name (smInit config fs) = none →
       ∀ schemas fs',
         fetch_schemas gw config (smInit config fs) = .ok (schemas, fs') →
         get_schema gw name config fs =
           .ok (alistLookup schemas (.str name), 1, fs')) := by
  constructor
  · intro r hload htr
    simp only [get_schema, hload, htr, if_true]
  · intro hload schemas fs' hfetch
    simp only [get_schema, hload, getSchemaFallback, hfetch]

/-- C7 witness: a cache hit returns the stored record with zero syncs; a
cache miss over the empty store runs exactly one fetch pass and returns its
"Tasks" record. -/
theorem get_schema_cache_first_witness :
    load_schema "default" "Tasks" (smInit "default" exFS2) = some exRecord ∧
    exRecord.truthy = true ∧
    get_schema exGateway "Tasks" "default" exFS2 =
      .ok (some exRecord, 0, smInit "default" exFS2) ∧
    load_schema "default" "Tasks" (smInit "default" FS.empty) = none ∧
    fetch_schemas exGateway "default" (smInit "default" FS.empty) =
      .ok (exFetchOut.1, exFetchOut.2) ∧
    get_schema exGateway "Tasks" "default" FS.empty =
      .ok (alistLookup exFetchOut.1 (.str "Tasks"), 1, exFetchOut.2) :=
  ⟨rfl, rfl,
   (get_schema_cache_first exGateway "Tasks" "default" exFS2).1 exRecord rfl rfl,
   rfl, rfl,
   (get_schema_cache_first exGateway "Tasks" "default" FS.empty).2 rfl
     exFetchOut.1 exFetchOut.2 rfl⟩

theorem extractProp_eq_spec (n : String) (c : Json) (s : String)
    (h : c.get "type" = some (.str s)) :
    extractProp n c = .ok (n, specProp c) := by
  simp [extractProp, specProp, h, Json.getD]

theorem extractProps_eq_spec (ps : List (String × Json))
    (acc : List (String × Json))
    (hnd : (ps.map Prod.fst).Nodup)
    (hdisj : ∀ p ∈ ps, p.1 ∉ acc.map Prod.fst)
    (hty : ∀ p ∈ ps, ∃ s : String, (p.2).get "type" = some (.str s)) :
    extractProps ps acc = .ok (acc ++ ps.map (fun p => (p.1, specProp p.2))) := by
  induction ps generalizing acc with
  | nil => simp [extractProps]
  | cons p rest ih =>
      obtain ⟨n, c⟩ := p
      obtain ⟨s, hs⟩ := hty (n, c) (by simp)
      simp only [List.map_cons, List.nodup_cons] at hnd
      simp only [extractProps, extractProp_eq_spec n c s hs]
      rw [alistInsert_of_not_mem _ _ _ (hdisj (n, c) (by simp))]
      rw [ih (acc ++ [(n, specProp c)]) hnd.2 ?_ (fun q hq => hty q (by simp [hq]))]
      · simp
      · intro q hq
        simp only [List.map_append, List.mem_append, List.map_cons,
                   List.map_nil, List.mem_singleton]
        rintro (hin | hqn)
        · exact hdisj q (by simp [hq]) hin
        · exact hnd.1 (hqn ▸ List.mem_map_of_mem Prod.fst hq)

/-- C4: on a well-formed input (an `id` key is present; `title`, when
present, is a rich-text sequence whose first span carries a plain-text
value; `properties`, when present, is a mapping of descriptors each carrying
a string type tag), the extractor returns exactly the record the
specification describes: id unchanged, title from the first span or empty,
and each field mapped to its type tag and the config stored under that tag
(empty when absent). -/
theorem extract_matches_spec (fields : List (String × Json)) (idv : Json)
    (hid : (Json.obj fields).get "id" = some idv)
    (htitle : (Json.obj fields).get "title" = none ∨
       (Json.obj fields).get "title" = some (.arr []) ∨
       ∃ x rest pt, (Json.obj fields).get "title" = some (.arr (x :: rest)) ∧
         x.get "plain_text" = some pt)
    (hprops : (Json.obj fields).get "properties" = none ∨
       ∃ ps, (Json.obj fields).get "properties" = some (.obj ps) ∧
         (ps.map Prod.fst).Nodup ∧
         ∀ p ∈ ps, ∃ s : String, (p.2).get "type" = some (.str s)) :
    extract_database_schema (.obj fields) = .ok (specExtract (.obj fields)) := by
  have ht : extractTitle (.obj fields) = .ok (specTitle (.obj fields)) := by
    rcases htitle with h | h | ⟨x, rest, pt, h, hx⟩
    · simp [extractTitle, specTitle, h]
    · simp [extractTitle, specTitle, h, Json.truthy]
    · simp [extractTitle, specTitle, h, Json.truthy, hx, Json.getD]
  rcases hprops with h | ⟨ps, h, hnd, hty⟩
  · simp [extract_database_schema, hid, ht, Json.getD, h, extractProps,
          specExtract]
  · have hep := extractProps_eq_spec ps [] hnd (by simp) hty
    simp [extract_database_schema, hid, ht, Json.getD, h, hep, specExtract]

/-- C4 witness: a concrete database with an id, a one-span title and two
properties (one carrying a config object under its type tag, one not). -/
theorem extract_matches_spec_witness :
    extract_database_schema
        (.obj [("id", .str "A1"),
               ("title", .arr [.obj [("plain_text", .str "Tasks")]]),
               ("properties",
                .obj [("Name", .obj [("type", .str "title"), ("title", .obj [])]),
                      ("Status", .obj [("type", .str "status")])])]) =
      .ok (specExtract
        (.obj [("id", .str "A1"),
               ("title", .arr [.obj [("plain_text", .str "Tasks")]]),
               ("properties",
                .obj [("Name", .obj [("type", .str "title"), ("title", .obj [])]),
                      ("Status", .obj [("type", .str "status")])])])) :=
  extract_matches_spec _ (.str "A1") rfl
    (Or.inr (Or.inr ⟨.obj [("plain_text", .str "Tasks")], [], .str "Tasks",
      rfl, rfl⟩))
    (Or.inr ⟨[("Name", .obj [("type", .str "title"), ("title", .obj [])]),
              ("Status", .obj [("type", .str "status")])],
      rfl, by decide,
      by
        intro p hp
        rcases List.mem_cons.1 hp with rfl | hp2
        · exact ⟨"title", rfl⟩
        · rcases List.mem_cons.1 hp2 with rfl | hp3
          · exact ⟨"status", rfl⟩
          · simp at hp3⟩)

theorem extractProps_ok_forall (ps : List (String × Json))
    (acc l : List (String × Json)) (h : extractProps ps acc = .ok l) :
    ∀ p ∈ ps, ∃ kv, extractProp p.1 p.2 = .ok kv := by
  induction ps generalizing acc with
  | nil => intro p hp; simp at hp
  | cons q rest ih =>
      obtain ⟨n, c⟩ := q
      intro p hp
      simp only [extractProps] at h
      cases hq : extractProp n c with
      | error e => rw [hq] at h; exact Except.noConfusion h
      | ok kv =>
          obtain ⟨k, v⟩ := kv
          rw [hq] at h
          rcases List.mem_cons.1 hp with rfl | hmem
          · exact ⟨(k, v), hq⟩
          · exact ih (alistInsert acc k v) h p hmem

/-- C10: the extractor is total only when the input carries an `id` key and
every property descriptor carries a `type` key: a missing top-level `id`
raises a key error, a descriptor without `type` prevents any record from
being returned, while a missing `title` together with a missing `properties`
mapping is handled defensively and still yields a record. -/
theorem extract_requires_id_and_type :
    (∀ fields : List (String × Json), (Json.obj fields).get "id" = none →
       extract_database_schema (.obj fields) = .error "KeyError: id") ∧
    (∀ (fields ps cs : List (String × Json)) (n : String),
       (Json.obj fields).get "properties" = some (.obj ps) →
       (n, Json.obj cs) ∈ ps → (Json.obj cs).get "type" = none →
       ∀ r, extract_database_schema (.obj fields) ≠ .ok r) ∧
    (∀ (fields : List (String × Json)) (idv : Json),
       (Json.obj fields).get "id" = some idv →
       (Json.obj fields).get "title" = none →
       (Json.obj fields).get "properties" = none →
       extract_database_schema (.obj fields) =
         .ok (.obj [("id", idv), ("title", .str ""), ("properties", .obj [])])) := by
  refine ⟨?_, ?_, ?_⟩
  · intro fields h
    simp [extract_database_schema, h]
  · intro fields ps cs n hprops hmem hty r hok
    cases hid : (Json.obj fields).get "id" with
    | none => simp [extract_database_schema, hid] at hok
    | some idv =>
        cases het : extractTitle (.obj fields) with
        | error e => simp [extract_database_schema, hid, het] at hok
        | ok t =>
            cases hep : extractProps ps [] with
            | ok l =>
                obtain ⟨kv, hkv⟩ :=
                  extractProps_ok_forall ps [] l hep (n, .obj cs) hmem
                simp [extractProp, hty] at hkv
            | error e =>
                simp [extract_database_schema, hid, het, Json.getD, hprops,
                      hep] at hok
  · intro fields idv hid htitle hprops
    simp [extract_database_schema, hid, extractTitle, htitle, Json.getD,
          hprops, extractProps]

/-- C10 witness: a database without `id` raises; a database whose descriptor
lacks `type` returns no record; a database with only an `id` still yields a
record with empty title and properties. -/
theorem extract_requires_id_and_type_witness :
    extract_database_schema (.obj [("title", .str "x")]) = .error "KeyError: id" ∧
    extract_database_schema
        (.obj [("id", .str "A1"),
               ("properties", .obj [("Broken", .obj [("name", .str "Broken")])])]) ≠
      .ok (.obj []) ∧
    extract_database_schema (.obj [("id", .str "A1")]) =
      .ok (.obj [("id", .str "A1"), ("title", .str ""), ("properties", .obj [])]) :=
  ⟨extract_requires_id_and_type.1 [("title", .str "x")] rfl,
   extract_requires_id_and_type.2.1
     [("id", .str "A1"),
      ("properties", .obj [("Broken", .obj [("name", .str "Broken")])])]
     [("Broken", .obj [("name", .str "Broken")])]
     [("name", .str "Broken")] "Broken" rfl (by decide) rfl (.obj []),
   extract_requires_id_and_type.2.2 [("id", .str "A1")] (.str "A1") rfl rfl rfl⟩

end NotionChakra
